import Mathlib

/-
Verification development for the request-orchestration core of
routers/proxy_router_v2.js (a multi-tenant LLM proxy backed by a Redis
queue).  The JavaScript source is shallowly embedded below: pure request
processing becomes Lean functions, the worker/lock/queue life cycle becomes
an explicit transition relation on a system state, Redis effects become
explicit command values, and the asynchronous provider calls become
function-valued parameters (their behaviour on a given request is a value
of type Except Err CanonResp).  JSON payload serialization between the
front end and the worker is modelled as the identity on the decoded value.
-/

namespace ProxyV2

/-- JSON values, modelling the untyped JavaScript data that the adapters
read from provider replies. -/
inductive Json where
  | null
  | bool (b : Bool)
  | num (n : Int)
  | str (s : String)
  | arr (elems : List Json)
  | obj (fields : List (String × Json))

/-- JavaScript truthiness of a JSON value (used by the source through the
logical-or and conditional operators). -/
def Json.truthy : Json → Bool
  | .null => false
  | .bool b => b
  | .num n => n != 0
  | .str s => s != ""
  | .arr _ => true
  | .obj _ => true

/-- Escape of a string body for JSON output (quote and backslash). -/
def escapeJsonString (s : String) : String :=
  String.mk ((s.data.map (fun c =>
    if c = '"' then ['\\', '"'] else if c = '\\' then ['\\', '\\'] else [c])).flatten)

mutual
/-- Model of JSON.stringify on JSON values. -/
def Json.stringify : Json → String
  | .null => "null"
  | .bool b => if b then "true" else "false"
  | .num n => toString n
  | .str s => "\"" ++ escapeJsonString s ++ "\""
  | .arr elems => "[" ++ String.intercalate "," (stringifyElems elems) ++ "]"
  | .obj fields => "\x7b" ++ String.intercalate "," (stringifyFields fields) ++ "\x7d"

/-- Stringified elements of a JSON array, in order. -/
def stringifyElems : List Json → List String
  | [] => []
  | x :: xs => Json.stringify x :: stringifyElems xs

/-- Stringified key/value pairs of a JSON object, in order. -/
def stringifyFields : List (String × Json) → List String
  | [] => []
  | (k, v) :: kvs =>
    ("\"" ++ escapeJsonString k ++ "\":" ++ Json.stringify v) :: stringifyFields kvs
end

/-- One part of an array-valued message content field: the source reads the
fields part.type, part.text and part.image_url.url. -/
structure MPart where
  ptype : String
  text : Option String := none
  image_url : Option String := none
  deriving DecidableEq, Repr

/-- Content of an incoming chat message: a plain string, an ordered array of
parts, or a nullish value (undefined / null). -/
inductive Content where
  | str (s : String)
  | arr (parts : List MPart)
  | nullish
  deriving DecidableEq, Repr

/-- An incoming chat message (the fields the embedded code reads). -/
structure Message where
  role : String
  content : Content
  deriving DecidableEq, Repr

/-- A legacy file descriptor from the request body: the source reads
file.type, file.url and file.data. -/
structure File where
  ftype : String
  url : Option String := none
  data : Option String := none
  deriving DecidableEq, Repr

/-- Environment configuration consumed by the embedded functions. -/
structure EnvConfig where
  allowProviderOverride : Option String := none
  primaryLlmProvider : Option String := none
  openaiApiKey : Option String := none
  geminiApiKey : Option String := none
  deriving DecidableEq, Repr

/-- Whether a provider name is a key of the API_CONFIGS table of the source
(lines 49-66): exactly "openai" and "gemini" are configured. -/
def API_CONFIGS_has (p : String) : Bool :=
  p == "openai" || p == "gemini"

/-- The default provider expression process.env.PRIMARY_LLM_PROVIDER ||
"openai" of line 122 (an absent or empty variable falls back to
"openai"). -/
def primaryDefault (env : EnvConfig) : String :=
  match env.primaryLlmProvider with
  | some p => if p != "" then p else "openai"
  | none => "openai"

/-- Embeds getProvider (proxy_router_v2.js lines 115-123).  A requested
value that is JavaScript-falsy (absent or the empty string) is modelled by
none or by the empty string. -/
def getProvider (env : EnvConfig) (requested : Option String) : String :=
  match requested with
  | some r =>
    if r != "" && (env.allowProviderOverride == some "true") && API_CONFIGS_has r then r
    else primaryDefault env
  | none => primaryDefault env

/-- Embeds detectQueryType (proxy_router_v2.js lines 125-147). -/
def detectQueryType (messages : List Message) (files : List File) : String :=
  let lastMessage : Content :=
    match messages.getLast? with
    | some m =>
      match m.content with
      | .nullish => .str ""
      | c => c
    | none => .str ""
  let hasInlineImage : Bool :=
    match lastMessage with
    | .arr parts => parts.any (fun p => p.ptype == "image_url")
    | _ => false
  let hasFiles : Bool := files.length > 0
  if hasFiles && ((files.head?.map (fun f => f.ftype)) == some "image") then "image_analysis"
  else if hasInlineImage then "image_analysis"
  else if hasFiles && ((files.head?.map (fun f => f.ftype)) == some "pdf") then
    "document_analysis"
  else
    let textLen : Nat :=
      match lastMessage with
      | .arr parts =>
        match (parts.find? (fun p => p.ptype == "text")).bind (fun p => p.text) with
        | some t => t.length
        | none => 0
      | .str s => s.length
      | .nullish => 0
    if textLen < 50 then "basic_query"
    else if textLen > 200 then "complex_query"
    else "basic_query"

/-- Embeds the CREDIT_COSTS table (lines 68-75); indexing a key that is not
in the table yields none (JavaScript undefined). -/
def CREDIT_COSTS (queryType : String) : Option ℚ :=
  if queryType == "basic_query" then some 1
  else if queryType == "file_search" then some 2
  else if queryType == "document_analysis" then some 3
  else if queryType == "image_analysis" then some 4
  else if queryType == "complex_query" then some 5
  else if queryType == "embedding" then some (1 / 2)
  else none

/-- Embeds calculateTokenCost (lines 149-156); an unknown provider falls
back to the gemini rates.  Costs are exact rationals. -/
def calculateTokenCost (provider : String) (input output : Nat) : ℚ :=
  let rates : ℚ × ℚ :=
    if provider == "openai" then ((0.15 : ℚ) / 1000000, (0.6 : ℚ) / 1000000)
    else if provider == "gemini" then ((0.075 : ℚ) / 1000000, (0.3 : ℚ) / 1000000)
    else ((0.075 : ℚ) / 1000000, (0.3 : ℚ) / 1000000)
  (input : ℚ) * rates.fst + (output : ℚ) * rates.snd

/-- A tool call in the canonical (OpenAI-shaped) response. -/
structure ToolCallFunction where
  name : Json
  arguments : String

/-- A canonical tool-call record. -/
structure ToolCall where
  id : String
  type : String
  function : ToolCallFunction

/-- The message of a canonical choice. -/
structure ChatMessage where
  role : String
  content : Json
  tool_calls : Option (List ToolCall) := none

/-- One choice of a canonical response. -/
structure Choice where
  message : ChatMessage

/-- Usage block of a canonical response. -/
structure Usage where
  prompt_tokens : Nat
  completion_tokens : Nat

/-- The canonical response shape produced by every adapter. -/
structure CanonResp where
  choices : List Choice
  usage : Usage

/-- Error values thrown by the embedded code (JavaScript Error objects are
modelled by their message). -/
structure Err where
  msg : String
  deriving DecidableEq, Repr

/-- The error thrown by routeWithFallback when no fallback credentials
exist (line 500). -/
def AllProvidersFailed : Err := ⟨"All providers failed"⟩

/-- Embeds logCreditUsage (lines 171-197); Date.now() is passed in as now. -/
structure CreditUsage where
  organization_id : Option String
  query_type : String
  credits_used : Option ℚ
  response_time_ms : Nat
  provider : String
  cost_usd : ℚ
  status : String

/-- Embeds logCreditUsage (lines 171-197). -/
def logCreditUsage (orgId : Option String) (queryType : String) (response : CanonResp)
    (provider : String) (startTime now : Nat) : CreditUsage :=
  { organization_id := orgId
    query_type := queryType
    credits_used := CREDIT_COSTS queryType
    response_time_ms := now - startTime
    provider := provider
    cost_usd := calculateTokenCost provider response.usage.prompt_tokens
      response.usage.completion_tokens
    status := "completed" }

/- ===== Gemini adapter, inbound direction (lines 427-465) ===== -/

/-- A functionCall object inside a Gemini reply part; absent or null args
are modelled by Json.null. -/
structure FunctionCallData where
  name : Json
  args : Json

/-- One part of a Gemini candidate content. -/
structure GPart where
  text : Option Json := none
  functionCall : Option FunctionCallData := none

/-- Content object of a Gemini candidate. -/
structure GContent where
  parts : Option (List GPart) := none

/-- One candidate of a Gemini reply. -/
structure GCandidate where
  content : Option GContent := none

/-- A Gemini generateContent reply body. -/
structure GeminiReply where
  candidates : Option (List GCandidate) := none

/-- Embeds candidate extraction: response.data.candidates?.[0] followed by
candidate?.content?.parts || [] (lines 427-428). -/
def geminiParts (reply : GeminiReply) : List GPart :=
  match reply.candidates with
  | none => []
  | some cs =>
    match cs.head? with
    | none => []
    | some c =>
      match c.content with
      | none => []
      | some ct => ct.parts.getD []

/-- Embeds parts.filter((p) => p.functionCall) (line 431), keeping the
functionCall payloads in part order. -/
def functionCallParts (parts : List GPart) : List FunctionCallData :=
  parts.filterMap (fun p => p.functionCall)

/-- The truthiness of parts[0]?.text, as tested by line 460. -/
def headTextTruthy (parts : List GPart) : Bool :=
  match parts.head? with
  | some p =>
    match p.text with
    | some t => t.truthy
    | none => false
  | none => false

/-- The literal safety-filter placeholder of line 460. -/
def safetyMessage : String := "⚠️ I cannot answer this due to safety filters."

/-- Embeds the reply translation of handleGemini (lines 427-465): the part
after the HTTP call succeeded.  Date.now() is passed in as ts. -/
def handleGeminiResult (ts : Nat) (reply : GeminiReply) : CanonResp :=
  let parts := geminiParts reply
  let fcs := functionCallParts parts
  if fcs.length > 0 then
    let tool_calls : List ToolCall :=
      fcs.enum.map (fun p =>
        { id := "call_" ++ toString ts ++ "_" ++ toString p.fst
          type := "function"
          function :=
            { name := p.snd.name
              arguments := Json.stringify (if p.snd.args.truthy then p.snd.args else .obj []) } })
    { choices := [⟨{ role := "assistant", content := Json.null, tool_calls := some tool_calls }⟩]
      usage := ⟨0, 0⟩ }
  else
    let text : Json :=
      match parts.head? with
      | some p =>
        match p.text with
        | some t => if t.truthy then t else .str safetyMessage
        | none => .str safetyMessage
      | none => .str safetyMessage
    { choices := [⟨{ role := "assistant", content := text, tool_calls := none }⟩]
      usage := ⟨0, 0⟩ }

/- ===== OpenAI adapter, legacy files fold (lines 243-268) ===== -/

/-- Index of the last user-role message: embeds the pipeline of lines
244-247, messages.map to (index, role) records, reverse, find the first
user role, read the index field; none models the undefined find result
whose .index read throws. -/
def lastUserIndex (messages : List Message) : Option Nat :=
  (((messages.enum.map (fun p => (p.fst, p.snd.role))).reverse).find?
      (fun q => q.snd == "user")).map (fun q => q.fst)

/-- The data URL built for an inline image file (line 264):
file.url || data-URL-of(file.data), with absent data printing as the string
"undefined" under template interpolation. -/
def legacyImageUrl (f : File) : String :=
  match f.url with
  | some u => if u != "" then u else "data:image/jpeg;base64," ++ (f.data.getD "undefined")
  | none => "data:image/jpeg;base64," ++ (f.data.getD "undefined")

/-- Embeds the message preprocessing of handleOpenAI (lines 240-269): the
legacy files fold into the last user message.  Reading .index of an
undefined find result throws, modelled as an error value. -/
def handleOpenAI_processedMessages (messages : List Message) (files : List File) :
    Except Err (List Message) :=
  if files.length > 0 then
    match lastUserIndex messages with
    | none => .error ⟨"TypeError: cannot read property index of undefined"⟩
    | some idx =>
      let lastMessage : Message := (messages[idx]?).getD ⟨"user", .nullish⟩
      let content0 : List MPart :=
        match lastMessage.content with
        | .str s => [⟨"text", some s, none⟩]
        | .arr parts => parts
        | .nullish => []
      let content : List MPart :=
        content0 ++ files.filterMap (fun f =>
          if f.ftype == "image" then some ⟨"image_url", none, some (legacyImageUrl f)⟩
          else none)
      .ok (messages.set idx { lastMessage with content := .arr content })
  else .ok messages

/- ===== Router with fallback (lines 475-502) ===== -/

/-- The two providers that routeWithFallback dispatches between. -/
inductive Provider where
  | openai
  | gemini
  deriving DecidableEq, Repr

/-- Embeds getApiKey (lines 81-87). -/
def getApiKey (env : EnvConfig) : Provider → Option String
  | .openai => env.openaiApiKey
  | .gemini => env.geminiApiKey

/-- JavaScript truthiness of the getApiKey result, as tested by
if (getApiKey(fallback)) on line 489. -/
def hasApiKey (env : EnvConfig) (p : Provider) : Bool :=
  match getApiKey env p with
  | some k => k != ""
  | none => false

/-- The fallback choice of line 488: provider === "openai" ? "gemini" :
"openai". -/
def fallbackOf (provider : Provider) : Provider :=
  if provider = .openai then .gemini else .openai

/-- Embeds routeWithFallback (lines 475-502).  The two adapters perform
HTTP, so their behaviour on the request at hand is abstracted into the
parameter call; the returned list records the adapter invocations in
order. -/
def routeWithFallback (env : EnvConfig) (call : Provider → Except Err CanonResp)
    (provider : Provider) : Except Err CanonResp × List Provider :=
  match call provider with
  | .ok r => (.ok r, [provider])
  | .error _ =>
    let fallback : Provider := fallbackOf provider
    if hasApiKey env fallback then (call fallback, [provider, fallback])
    else (.error AllProvidersFailed, [provider])

/- ===== Worker job processing (lines 588-641) ===== -/

/-- A decoded job, with the fields the worker body reads. -/
structure Job where
  jobId : String
  requestId : String
  provider : String
  messages : List Message
  files : List File
  organization_id : Option String := none
  category : Option String := none
  nameUser : Option String := none
  startTime : Nat := 0

/-- The metadata block assembled on lines 614-625. -/
structure Metadata where
  request_id : String
  provider : String
  nameUser : String
  hasFiles : Bool
  timestamp : Nat
  query_type : String
  priority : Option String
  credits_used : Option ℚ
  response_time_ms : Nat
  cost_usd : ℚ

/-- The final response: the canonical response spread together with the
metadata block (lines 612-626). -/
structure FinalResponse where
  choices : List Choice
  usage : Usage
  metadata : Metadata

/-- The JSON payload written into a result slot: success plus data or
error (lines 628-640). -/
structure JobResult where
  success : Bool
  data : Option FinalResponse := none
  error : Option String := none

/-- A Redis write command issued by the worker. -/
inductive RedisCmd where
  | setex (key : String) (ttlSeconds : Nat) (value : JobResult)

/-- Builds the final response of lines 602-626 for a successful router
call; new Date() is passed in as now. -/
def mkFinalResponse (job : Job) (response : CanonResp) (now : Nat) : FinalResponse :=
  let queryType := detectQueryType job.messages job.files
  let creditUsage := logCreditUsage job.organization_id queryType response job.provider
    job.startTime now
  { choices := response.choices
    usage := response.usage
    metadata :=
      { request_id := job.requestId
        provider := job.provider
        nameUser := match job.nameUser with
          | some s => if s != "" then s else "Anonymous"
          | none => "Anonymous"
        hasFiles := job.files.length > 0
        timestamp := now
        query_type := queryType
        priority := match job.category with
          | some c => if c != "" then some c else none
          | none => none
        credits_used := creditUsage.credits_used
        response_time_ms := creditUsage.response_time_ms
        cost_usd := creditUsage.cost_usd } }

/-- Embeds the per-job try/catch body of processUserQueue (lines 592-641):
the router outcome (success value or thrown error) is the parameter, the
returned list is the sequence of Redis writes performed, and the Bool is
whether the worker loop continues afterwards (it always does: the catch
block never rethrows). -/
def processUserQueue_perJob (job : Job) (outcome : Except Err CanonResp) (now : Nat) :
    List RedisCmd × Bool :=
  match outcome with
  | .ok response =>
    ([RedisCmd.setex ("result:" ++ job.jobId) 300
        ⟨true, some (mkFinalResponse job response now), none⟩], true)
  | .error e =>
    ([RedisCmd.setex ("result:" ++ job.jobId) 300 ⟨false, none, some e.msg⟩], true)

/- ===== Result waiting and the chat reply (lines 650-668, 727-745) ===== -/

/-- Outcome of the polling loop of waitForResult. -/
inductive WaitOutcome where
  | found (tick : Nat) (value : JobResult)
  | timedOut

/-- A finished run of waitForResult: its outcome plus whether the result
slot was deleted. -/
structure WaitRun where
  outcome : WaitOutcome
  deleted : Bool

/-- The polling loop of waitForResult (lines 653-666): the interval fires
at ticks 0, 1, 2, ...; at tick t the elapsed wall clock is 100 * (t + 1)
milliseconds; the deadline test precedes the slot read, and a found value
is deleted before the promise resolves.  slot gives the slot content at
each tick; fuel bounds the recursion and is chosen large enough at the
entry point that it never runs out before the deadline test fires. -/
def waitGo (slot : Nat → Option JobResult) (timeoutMs : Nat) : Nat → Nat → WaitRun
  | 0, _ => ⟨.timedOut, false⟩
  | fuel + 1, tick =>
    if 100 * (tick + 1) > timeoutMs then ⟨.timedOut, false⟩
    else
      match slot tick with
      | some v => ⟨.found tick v, true⟩
      | none => waitGo slot timeoutMs fuel (tick + 1)

/-- Embeds waitForResult (lines 650-668) for the slot key of one job. -/
def waitForResult (slot : Nat → Option JobResult) (timeoutMs : Nat) : WaitRun :=
  waitGo slot timeoutMs (timeoutMs / 100 + 1) 0

/-- The HTTP reply of the chat handler. -/
inductive ChatReply where
  | ok200 (data : Option FinalResponse)
  | err500 (error : Option String)

/-- Embeds the tail of the chat route (lines 727-745): the reply computed
from the awaited result; a rejected wait (Timeout) lands in the catch
block and replies 500 with the error message. -/
def chatHandlerReply (slot : Nat → Option JobResult) : ChatReply :=
  match (waitForResult slot 180000).outcome with
  | .found _ r => if r.success then .ok200 r.data else .err500 r.error
  | .timedOut => .err500 (some "Timeout")

/- ===== Worker life cycle as a transition system (lines 34-43, 559-586,
643-648, 721-725) ===== -/

/-- Embeds CLEANUP_SCRIPT (lines 36-43), an atomic server-side script over
the queue list and the lock key of one tenant: returns the script result
together with the queue and lock after execution. -/
def CLEANUP_SCRIPT (queue : List String) (lock : Option (String × Nat)) :
    Nat × List String × Option (String × Nat) :=
  if queue.length = 0 then (1, queue, none) else (0, queue, lock)

/-- Program counter of one worker for the tenant under consideration. -/
inductive WPC where
  | notStarted
  | inLoop
  | done
  deriving DecidableEq, Repr

/-- State of the system for a single tenant: the Redis queue list, the
Redis lock key (value and TTL when present), the process-local registry
entry (userWorkers), and the program counter of each potential worker. -/
structure SysState where
  queue : List String
  lock : Option (String × Nat)
  registry : Bool
  pc : Nat → WPC

/-- Pointwise update of the worker program counters. -/
def updatePc (pc : Nat → WPC) (w : Nat) (v : WPC) : Nat → WPC :=
  fun w' => if w' = w then v else pc w'

/-- The initial state: empty queue, no lock, no registry entry, no worker
started. -/
def initState : SysState := ⟨[], none, false, fun _ => .notStarted⟩

/-- Interleaved small steps of producers and workers for one tenant,
embedding processUserQueue (lines 559-586) and the admission path (lines
721-725).  A worker enters its loop only through a successful
set(lock, "1", EX 300, NX); a failed set returns at once (line 565); an
empty blocking pop runs CLEANUP_SCRIPT atomically and either exits
(deleting the registry entry) or continues; the outer catch of a crashed
in-loop worker deletes the lock and the registry entry. -/
inductive Step : SysState → SysState → Prop
  | push (s : SysState) (j : String) :
      Step s { s with queue := s.queue ++ [j] }
  | spawn (s : SysState) (h : s.registry = false) :
      Step s { s with registry := true }
  | acquireOk (s : SysState) (w : Nat)
      (hw : s.pc w = .notStarted) (hl : s.lock = none) :
      Step s { s with lock := some ("1", 300), pc := updatePc s.pc w .inLoop }
  | acquireFail (s : SysState) (w : Nat)
      (hw : s.pc w = .notStarted) (hl : s.lock ≠ none) :
      Step s { s with pc := updatePc s.pc w .done }
  | popJob (s : SysState) (w : Nat) (j : String) (rest : List String)
      (hw : s.pc w = .inLoop) (hq : s.queue = j :: rest) :
      Step s { s with queue := rest }
  | cleanupExit (s : SysState) (w : Nat) (r : Nat) (q' : List String)
      (l' : Option (String × Nat)) (hw : s.pc w = .inLoop)
      (hs : CLEANUP_SCRIPT s.queue s.lock = (r, q', l')) (hr : r = 1) :
      Step s { s with queue := q', lock := l', registry := false,
                      pc := updatePc s.pc w .done }
  | cleanupContinue (s : SysState) (w : Nat) (r : Nat) (q' : List String)
      (l' : Option (String × Nat)) (hw : s.pc w = .inLoop)
      (hs : CLEANUP_SCRIPT s.queue s.lock = (r, q', l')) (hr : r ≠ 1) :
      Step s { s with queue := q', lock := l' }
  | crash (s : SysState) (w : Nat) (hw : s.pc w = .inLoop) :
      Step s { s with lock := none, registry := false, pc := updatePc s.pc w .done }

/-- States reachable from the initial state. -/
inductive Reachable : SysState → Prop
  | init : Reachable initState
  | step (s s' : SysState) : Reachable s → Step s s' → Reachable s'

/- ===== Claim C9 ===== -/

/-- Claim C9: the selected provider is the requested one exactly when the
request names a (nonempty) provider, ALLOW_PROVIDER_OVERRIDE is the string
"true", and the requested name is configured (openai or gemini); in every
other case the selection falls back to the configured primary provider
(default "openai"); the function is total, so an unknown requested
provider never produces an error. -/
theorem provider_selection_at_admission (env : EnvConfig) (requested : Option String) :
    (∀ r, requested = some r → r ≠ "" → env.allowProviderOverride = some "true" →
      API_CONFIGS_has r = true → getProvider env requested = r) ∧
    ((match requested with
      | some r => r = "" ∨ env.allowProviderOverride ≠ some "true" ∨ API_CONFIGS_has r = false
      | none => True) → getProvider env requested = primaryDefault env) ∧
    (getProvider env requested = primaryDefault env ∨
      requested = some (getProvider env requested)) := by
  rcases requested with _ | r
  · exact ⟨(fun r h => nomatch h), fun _ => rfl, Or.inl rfl⟩
  · by_cases hc : (r != "" && (env.allowProviderOverride == some "true")
        && API_CONFIGS_has r) = true
    · have hg : getProvider env (some r) = r := by simp [getProvider, hc]
      refine ⟨fun r' hr' _ _ _ => by cases hr'; exact hg, ?_, Or.inr (by rw [hg])⟩
      intro hdis
      exfalso
      simp only [Bool.and_eq_true, bne_iff_ne, ne_eq, beq_iff_eq] at hc
      rcases hdis with h1 | h2 | h3
      · exact hc.1.1 h1
      · exact h2 hc.1.2
      · rw [hc.2] at h3; cases h3
    · have hg : getProvider env (some r) = primaryDefault env := by
        simp only [getProvider]
        rw [if_neg hc]
      refine ⟨?_, fun _ => hg, Or.inl hg⟩
      intro r' hr' hne hov hcfg
      cases hr'
      exfalso
      apply hc
      simp only [Bool.and_eq_true, bne_iff_ne, ne_eq, beq_iff_eq]
      exact ⟨⟨hne, hov⟩, hcfg⟩

/-- Witness for claim C9 at a concrete environment and request. -/
theorem provider_selection_at_admission_witness :
    getProvider ⟨some "true", none, none, none⟩ (some "gemini") = "gemini" :=
  (provider_selection_at_admission ⟨some "true", none, none, none⟩ (some "gemini")).1
    "gemini" rfl (by decide) rfl (by decide)

/- ===== Claim C5 ===== -/

/-- Whether a message content is an array holding an image-URL part. -/
def contentHasImagePart : Content → Bool
  | .arr parts => parts.any (fun p => p.ptype == "image_url")
  | _ => false

/-- Text length of a message content: plain string length, or the length
of the first text part of an array content. -/
def contentTextLen : Content → Nat
  | .str s => s.length
  | .arr parts =>
    match (parts.find? (fun p => p.ptype == "text")).bind (fun p => p.text) with
    | some t => t.length
    | none => 0
  | .nullish => 0

/-- Text length of the last user-role message of a list. -/
def lastUserTextLen (messages : List Message) : Nat :=
  match (messages.filter (fun m => m.role == "user")).getLast? with
  | some m => contentTextLen m.content
  | none => 0

/-- The detection rule exactly as claim C5 states it: image_analysis when
ANY file is an image or ANY message content part has kind image-URL; else
document_analysis when ANY file is a pdf; else by the text length of the
last USER message. -/
def detectQueryTypeClaimed (messages : List Message) (files : List File) : String :=
  if files.any (fun f => f.ftype == "image")
      || messages.any (fun m => contentHasImagePart m.content) then "image_analysis"
  else if files.any (fun f => f.ftype == "pdf") then "document_analysis"
  else
    let textLen : Nat := lastUserTextLen messages
    if textLen < 50 then "basic_query"
    else if textLen > 200 then "complex_query"
    else "basic_query"

/-- Counterexample to claim C5: with files [pdf, image] the second file is
an image, so the claim requires image_analysis, but the source only
inspects files[0] and returns document_analysis. -/
theorem detect_query_type_counterexample :
    detectQueryType [⟨"user", .str "hi"⟩] [⟨"pdf", none, none⟩, ⟨"image", none, none⟩]
      = "document_analysis" ∧
    detectQueryTypeClaimed [⟨"user", .str "hi"⟩] [⟨"pdf", none, none⟩, ⟨"image", none, none⟩]
      = "image_analysis" ∧
    ("document_analysis" : String) ≠ "image_analysis" :=
  ⟨rfl, rfl, by decide⟩

/-- The detection rule as the source implements it (amended claim C5):
image_analysis when the FIRST file is an image or the LAST message content
is an array containing an image-URL part; else document_analysis when the
first file is a pdf; else by the text length of the last message (its
string length, or the length of the first text part when the content is an
array, 0 when there is none): under 50 basic_query, over 200
complex_query, else basic_query. -/
def detectQueryTypeAmended (messages : List Message) (files : List File) : String :=
  let firstFileIs : String → Bool := fun t =>
    match files.head? with
    | some f => f.ftype == t
    | none => false
  let lastContent : Content :=
    match messages.getLast? with
    | some m => m.content
    | none => .nullish
  let lastHasImagePart : Bool :=
    match lastContent with
    | .arr parts => parts.any (fun p => p.ptype == "image_url")
    | _ => false
  if firstFileIs "image" then "image_analysis"
  else if lastHasImagePart then "image_analysis"
  else if firstFileIs "pdf" then "document_analysis"
  else
    let textLen : Nat :=
      match lastContent with
      | .str s => s.length
      | .arr parts =>
        match (parts.find? (fun p => p.ptype == "text")).bind (fun p => p.text) with
        | some t => t.length
        | none => 0
      | .nullish => 0
    if textLen < 50 then "basic_query"
    else if textLen > 200 then "complex_query"
    else "basic_query"

/-- Amended claim C5: the query type detected by the source agrees with
the amended detection rule on every input. -/
theorem detect_query_type_amended_correct (messages : List Message) (files : List File) :
    detectQueryType messages files = detectQueryTypeAmended messages files := by
  unfold detectQueryType detectQueryTypeAmended
  rcases files with _ | ⟨f, fs⟩
  · rcases hms : messages.getLast? with _ | m
    · simp only [hms]
      rfl
    · obtain ⟨mrole, mcontent⟩ := m
      simp only [hms]
      cases mcontent <;> rfl
  · rcases hms : messages.getLast? with _ | m
    · simp only [hms]
      simp
    · obtain ⟨mrole, mcontent⟩ := m
      simp only [hms]
      cases mcontent <;> simp

/- ===== Claim C3 ===== -/

/-- Environment with both provider keys configured, used by the fallback
counterexample. -/
def envBothKeys : EnvConfig := ⟨none, none, some "sk-openai", some "sk-gemini"⟩

/-- Adapter behaviour where both providers throw, with distinct
messages. -/
def callBothFail : Provider → Except Err CanonResp := fun p =>
  match p with
  | .openai => .error ⟨"primary exploded"⟩
  | .gemini => .error ⟨"fallback exploded"⟩

/-- Counterexample to claim C3: when the primary throws, the alternative
has credentials and also throws, the router propagates the error of the
alternative rather than raising AllProvidersFailed. -/
theorem route_fallback_counterexample :
    (routeWithFallback envBothKeys callBothFail .openai).fst = .error ⟨"fallback exploded"⟩ ∧
    (⟨"fallback exploded"⟩ : Err) ≠ AllProvidersFailed :=
  ⟨rfl, by decide⟩

/-- Amended claim C3: if the primary adapter succeeds the alternative is
never invoked; if the primary throws and the alternative (the one of
openai and gemini that is not the primary) has credentials, the
alternative is invoked exactly once and its own outcome (success or
thrown error) is the outcome of the router; if the primary throws and the
alternative has no credentials, the router raises AllProvidersFailed after
invoking only the primary. -/
theorem route_fallback_law (env : EnvConfig) (call : Provider → Except Err CanonResp)
    (provider : Provider) :
    (∀ r, call provider = .ok r →
      routeWithFallback env call provider = (.ok r, [provider])) ∧
    (∀ e, call provider = .error e → hasApiKey env (fallbackOf provider) = true →
      routeWithFallback env call provider =
        (call (fallbackOf provider), [provider, fallbackOf provider])) ∧
    (∀ e, call provider = .error e → hasApiKey env (fallbackOf provider) = false →
      routeWithFallback env call provider = (.error AllProvidersFailed, [provider])) ∧
    [provider, fallbackOf provider].count (fallbackOf provider) = 1 := by
  refine ⟨?_, ?_, ?_, ?_⟩
  · intro r h
    simp [routeWithFallback, h]
  · intro e h hk
    simp [routeWithFallback, h, hk]
  · intro e h hk
    simp [routeWithFallback, h, hk]
  · cases provider <;> decide

/-- Witness for claim C3: primary openai throws, gemini has a key, so the
gemini adapter is invoked exactly once and its outcome is returned. -/
theorem route_fallback_law_witness :
    routeWithFallback ⟨none, none, some "k", some "k"⟩ (fun _ => .error ⟨"x"⟩) .openai
      = (.error ⟨"x"⟩, [.openai, .gemini]) := by
  have h := (route_fallback_law ⟨none, none, some "k", some "k"⟩
    (fun _ => .error ⟨"x"⟩) .openai).2.1 ⟨"x"⟩ rfl rfl
  simpa using h

/- ===== Claim C6 ===== -/

/-- Claim C6: for every dequeued job the worker issues exactly one Redis
write, a setex of result:{jobId} with TTL 300 seconds, whose value is
success with the canonical response extended by the metadata block when
the router succeeded and failure with the error message when anything
threw; in both cases the loop continues (the catch block never
rethrows). -/
theorem perjob_result_publication (job : Job) (outcome : Except Err CanonResp) (now : Nat) :
    ∃ v : JobResult,
      (processUserQueue_perJob job outcome now).fst =
        [RedisCmd.setex ("result:" ++ job.jobId) 300 v] ∧
      (processUserQueue_perJob job outcome now).snd = true ∧
      (∀ resp, outcome = .ok resp → v = ⟨true, some (mkFinalResponse job resp now), none⟩) ∧
      (∀ e, outcome = .error e → v = ⟨false, none, some e.msg⟩) := by
  cases outcome with
  | ok resp =>
    refine ⟨⟨true, some (mkFinalResponse job resp now), none⟩, rfl, rfl, ?_, ?_⟩
    · intro r hr
      cases hr
      rfl
    · intro e he
      cases he
  | error e =>
    refine ⟨⟨false, none, some e.msg⟩, rfl, rfl, ?_, ?_⟩
    · intro r hr
      cases hr
    · intro e' he
      cases he
      rfl

/-- Witness for claim C6 at a concrete job whose router call threw. -/
theorem perjob_result_publication_witness :
    (processUserQueue_perJob ⟨"j1", "r1", "openai", [], [], none, none, none, 0⟩
        (.error ⟨"boom"⟩) 5).fst =
      [RedisCmd.setex "result:j1" 300 ⟨false, none, some "boom"⟩] := by
  obtain ⟨v, h1, -, -, h4⟩ := perjob_result_publication
    ⟨"j1", "r1", "openai", [], [], none, none, none, 0⟩ (.error ⟨"boom"⟩) 5
  rw [h4 ⟨"boom"⟩ rfl] at h1
  exact h1

/- ===== Claim C4 ===== -/

/-- A Gemini reply whose only part carries a functionCall and no text,
used by the safety-mapping counterexample. -/
def replyFnCallNoText : GeminiReply :=
  ⟨some [⟨some ⟨some [⟨none, some ⟨.str "f", .null⟩⟩]⟩⟩]⟩

/-- Counterexample to claim C4: this reply has a first part that carries
no text, yet the adapter does not return the safety placeholder; it
synthesizes a tool-call message whose content is null. -/
theorem gemini_safety_counterexample :
    headTextTruthy (geminiParts replyFnCallNoText) = false ∧
    (handleGeminiResult 0 replyFnCallNoText).choices.map (fun c => c.message.content)
      = [Json.null] ∧
    Json.null ≠ Json.str safetyMessage :=
  ⟨rfl, rfl, (fun h => nomatch h)⟩

/-- Amended claim C4: for every Gemini reply whose first candidate carries
NO functionCall part and has no content parts (or whose first part carries
no truthy text), the adapter returns the canonical response whose single
choice content is the literal safety placeholder, with zero-filled usage,
and it does not throw: feeding this response to the per-job worker body
writes the result slot with success true. -/
theorem gemini_safety_mapping (ts : Nat) (reply : GeminiReply) (job : Job) (now : Nat)
    (hfc : functionCallParts (geminiParts reply) = [])
    (ht : headTextTruthy (geminiParts reply) = false) :
    handleGeminiResult ts reply =
      ⟨[⟨{ role := "assistant", content := .str safetyMessage, tool_calls := none }⟩], ⟨0, 0⟩⟩ ∧
    (processUserQueue_perJob job (.ok (handleGeminiResult ts reply)) now).fst =
      [RedisCmd.setex ("result:" ++ job.jobId) 300
        ⟨true, some (mkFinalResponse job (handleGeminiResult ts reply) now), none⟩] := by
  refine ⟨?_, rfl⟩
  simp only [handleGeminiResult]
  rw [hfc]
  simp only [List.length_nil, gt_iff_lt, Nat.lt_irrefl, if_false]
  rcases hh : (geminiParts reply).head? with _ | p
  · rfl
  · rcases hp : p.text with _ | t
    · simp only [hp]
    · simp only [headTextTruthy, hh, hp] at ht
      simp [hp, ht]

/-- Witness for claim C4 at a reply with no candidates. -/
theorem gemini_safety_mapping_witness :
    handleGeminiResult 0 ⟨none⟩ =
      ⟨[⟨{ role := "assistant", content := .str safetyMessage, tool_calls := none }⟩], ⟨0, 0⟩⟩ :=
  (gemini_safety_mapping 0 ⟨none⟩ ⟨"j9", "r9", "gemini", [], [], none, none, none, 0⟩ 0
    rfl rfl).1

/- ===== Claim C8 ===== -/

/-- The argument serialization exactly as claim C8 states it:
JSON.stringify of (args nullish-coalesced with the empty object). -/
def claimedArguments (args : Json) : String :=
  Json.stringify (match args with | .null => .obj [] | a => a)

/-- A Gemini reply whose only part is a functionCall with args equal to
the JSON value false (a legal JSON payload), used by the tool-call
counterexample. -/
def replyFalseArgs : GeminiReply :=
  ⟨some [⟨some ⟨some [⟨none, some ⟨.str "f", .bool false⟩⟩]⟩⟩]⟩

/-- Counterexample to claim C8: with args equal to the JSON value false,
the source computes args || empty-object (JavaScript truthiness), yielding
the string for the empty object, while the claim prescribes
JSON.stringify(args ?? empty-object), yielding the string false. -/
theorem gemini_toolcall_counterexample :
    (handleGeminiResult 0 replyFalseArgs).choices.map
      (fun c => c.message.tool_calls.map (fun tcs => tcs.map (fun tc => tc.function.arguments)))
      = [some ["\x7b\x7d"]] ∧
    claimedArguments (.bool false) = "false" ∧
    ("\x7b\x7d" : String) ≠ "false" :=
  ⟨rfl, rfl, by decide⟩

/-- Amended claim C8: for every Gemini reply whose first candidate carries
at least one functionCall part, the adapter returns an assistant message
with null content and tool_calls listing, in part order, records with id
call_<ts>_<i>, type function, the function name, and arguments equal to
JSON.stringify of args when args is truthy and of the empty object
otherwise (the source computes args || empty-object), with zero-filled
usage. -/
theorem gemini_toolcall_synthesis (ts : Nat) (reply : GeminiReply)
    (h : functionCallParts (geminiParts reply) ≠ []) :
    handleGeminiResult ts reply =
      ⟨[⟨{ role := "assistant", content := Json.null,
           tool_calls := some ((functionCallParts (geminiParts reply)).enum.map (fun p =>
             ⟨"call_" ++ toString ts ++ "_" ++ toString p.fst, "function",
              ⟨p.snd.name,
               Json.stringify (if p.snd.args.truthy then p.snd.args else .obj [])⟩⟩)) }⟩],
       ⟨0, 0⟩⟩ := by
  simp only [handleGeminiResult]
  have hlen : (functionCallParts (geminiParts reply)).length > 0 := by
    cases hfc : functionCallParts (geminiParts reply) with
    | nil => exact absurd hfc h
    | cons a l => simp
  rw [if_pos hlen]

/-- Witness for claim C8 at a concrete reply with one functionCall. -/
theorem gemini_toolcall_synthesis_witness :
    handleGeminiResult 3 ⟨some [⟨some ⟨some [⟨none, some ⟨.str "lookup", .obj [("q", .str "x")]⟩⟩]⟩⟩]⟩
      = ⟨[⟨{ role := "assistant", content := Json.null,
             tool_calls := some [⟨"call_3_0", "function",
               ⟨.str "lookup", "\x7b\"q\":\"x\"\x7d"⟩⟩] }⟩],
         ⟨0, 0⟩⟩ := by
  have h := gemini_toolcall_synthesis 3
    ⟨some [⟨some ⟨some [⟨none, some ⟨.str "lookup", .obj [("q", .str "x")]⟩⟩]⟩⟩]⟩
    (fun hh => nomatch hh)
  exact h

/- ===== Claim C7 ===== -/

/-- Helper: the polling loop times out (returning without deleting) when
the slot is empty at every tick before the 180 second deadline. -/
theorem waitGo_timeout (slot : Nat → Option JobResult) :
    ∀ fuel tick, (∀ t, tick ≤ t → t < 1800 → slot t = none) →
      waitGo slot 180000 fuel tick = ⟨.timedOut, false⟩ := by
  intro fuel
  induction fuel with
  | zero => intro tick _; rfl
  | succ n ih =>
    intro tick h
    unfold waitGo
    by_cases hd : 100 * (tick + 1) > 180000
    · rw [if_pos hd]
    · rw [if_neg hd]
      have htick : tick < 1800 := by omega
      rw [h tick (Nat.le_refl tick) htick]
      exact ih (tick + 1) (fun t ht1 ht2 => h t (by omega) ht2)

/-- Helper: the polling loop resolves at the first tick holding a value,
deleting the slot, provided that tick beats the deadline and the fuel. -/
theorem waitGo_found (slot : Nat → Option JobResult) :
    ∀ fuel tick t0 v, tick ≤ t0 → t0 < 1800 → slot t0 = some v →
      (∀ t, tick ≤ t → t < t0 → slot t = none) → t0 - tick < fuel →
      waitGo slot 180000 fuel tick = ⟨.found t0 v, true⟩ := by
  intro fuel
  induction fuel with
  | zero => intro tick t0 v _ _ _ _ hf; omega
  | succ n ih =>
    intro tick t0 v hle hlt hv hnone hf
    unfold waitGo
    have hd : ¬ (100 * (tick + 1) > 180000) := by omega
    rw [if_neg hd]
    rcases Nat.eq_or_lt_of_le hle with heq | hlt2
    · subst heq
      rw [hv]
    · rw [hnone tick (Nat.le_refl tick) hlt2]
      exact ih (tick + 1) t0 v hlt2 hlt hv (fun t h1 h2 => hnone t (by omega) h2) (by omega)

/-- Claim C7: the waiter polls the result slot every 100 ms; at the first
poll that finds a value (necessarily before the 1800th poll, the 180 s
wall clock) it deletes the slot and the chat handler replies 200 with the
data when success is true and 500 with the error when success is false;
when no value appears before the deadline, the waiter rejects without
deleting and the handler replies 500 with the error Timeout. -/
theorem result_wait_coupling (slot : Nat → Option JobResult) :
    (∀ t0 r, t0 < 1800 → slot t0 = some r → (∀ t, t < t0 → slot t = none) →
      waitForResult slot 180000 = ⟨.found t0 r, true⟩ ∧
      chatHandlerReply slot = (if r.success then .ok200 r.data else .err500 r.error)) ∧
    ((∀ t, t < 1800 → slot t = none) →
      waitForResult slot 180000 = ⟨.timedOut, false⟩ ∧
      chatHandlerReply slot = .err500 (some "Timeout")) := by
  constructor
  · intro t0 r ht0 hr hnone
    have hw : waitForResult slot 180000 = ⟨.found t0 r, true⟩ := by
      unfold waitForResult
      exact waitGo_found slot (180000 / 100 + 1) 0 t0 r (Nat.zero_le t0) ht0 hr
        (fun t _ h2 => hnone t h2) (by omega)
    refine ⟨hw, ?_⟩
    unfold chatHandlerReply
    rw [hw]
  · intro hnone
    have hw : waitForResult slot 180000 = ⟨.timedOut, false⟩ := by
      unfold waitForResult
      exact waitGo_timeout slot (180000 / 100 + 1) 0 (fun t _ h2 => hnone t h2)
    refine ⟨hw, ?_⟩
    unfold chatHandlerReply
    rw [hw]

/-- Witness for claim C7: a slot that first holds a failed result at tick
2 resolves there with deletion, and the handler replies 500 with the
stored error. -/
theorem result_wait_coupling_witness :
    waitForResult (fun t => if t = 2 then some ⟨false, none, some "errmsg"⟩ else none) 180000
      = ⟨.found 2 ⟨false, none, some "errmsg"⟩, true⟩ ∧
    chatHandlerReply (fun t => if t = 2 then some ⟨false, none, some "errmsg"⟩ else none)
      = .err500 (some "errmsg") := by
  have h := (result_wait_coupling
      (fun t => if t = 2 then some ⟨false, none, some "errmsg"⟩ else none)).1
    2 ⟨false, none, some "errmsg"⟩ (by omega) (by simp)
    (fun t ht => by rw [if_neg (by omega)])
  exact ⟨h.1, h.2⟩

/- ===== Claim C10 ===== -/

/-- Helper: enumFrom distributes over appending one element. -/
theorem enumFrom_concat {α : Type _} (l : List α) (a : α) :
    ∀ n, List.enumFrom n (l ++ [a]) = List.enumFrom n l ++ [(n + l.length, a)] := by
  induction l with
  | nil => intro n; simp [List.enumFrom]
  | cons x xs ih =>
    intro n
    have harith : n + 1 + xs.length = n + (xs.length + 1) := by omega
    show (n, x) :: List.enumFrom (n + 1) (xs ++ [a])
        = (n, x) :: List.enumFrom (n + 1) xs ++ [(n + (xs.length + 1), a)]
    rw [ih (n + 1), harith]
    simp

/-- Helper: the last-user-index search, one element at a time from the
right. -/
theorem lastUserIndex_concat (ms : List Message) (m : Message) :
    lastUserIndex (ms ++ [m]) =
      if m.role == "user" then some ms.length else lastUserIndex ms := by
  by_cases hm : (m.role == "user") = true
  · simp [lastUserIndex, List.enum, enumFrom_concat, hm]
  · simp only [Bool.not_eq_true] at hm
    simp [lastUserIndex, List.enum, enumFrom_concat, hm]

/-- Helper: the last-user-index search fails exactly when no message has
the user role. -/
theorem lastUserIndex_none_iff (ms : List Message) :
    lastUserIndex ms = none ↔ ∀ x ∈ ms, x.role ≠ "user" := by
  induction ms using List.reverseRecOn with
  | nil => simp [lastUserIndex]
  | append_singleton ms m ih =>
    rw [lastUserIndex_concat]
    by_cases hm : (m.role == "user") = true
    · rw [if_pos hm]
      simp only [beq_iff_eq] at hm
      constructor
      · intro hcon
        exact nomatch hcon
      · intro hall
        exact absurd hm (hall m (by simp))
    · rw [if_neg hm]
      simp only [Bool.not_eq_true, beq_eq_false_iff_ne, ne_eq] at hm
      rw [ih]
      constructor
      · intro hall x hx
        rcases List.mem_append.mp hx with hx | hx
        · exact hall x hx
        · rw [List.mem_singleton] at hx
          subst hx
          exact hm
      · intro hall x hx
        exact hall x (List.mem_append.mpr (Or.inl hx))

/-- Helper: a successful last-user-index search returns the greatest index
holding a user-role message. -/
theorem lastUserIndex_spec (ms : List Message) :
    ∀ idx, lastUserIndex ms = some idx →
      idx < ms.length ∧ ms[idx]?.map (fun mm => mm.role) = some "user" ∧
      ∀ j, idx < j → ms[j]?.map (fun mm => mm.role) ≠ some "user" := by
  induction ms using List.reverseRecOn with
  | nil => intro idx h; exact absurd h (by simp [lastUserIndex])
  | append_singleton ms m ih =>
    intro idx h
    rw [lastUserIndex_concat] at h
    by_cases hm : (m.role == "user") = true
    · rw [if_pos hm] at h
      cases h
      simp only [beq_iff_eq] at hm
      refine ⟨by simp, ?_, ?_⟩
      · rw [List.getElem?_append_right (Nat.le_refl ms.length)]
        simp [hm]
      · intro j hj
        have hnone : (ms ++ [m])[j]? = none := by
          apply List.getElem?_eq_none
          simp
          omega
        simp [hnone]
    · rw [if_neg hm] at h
      obtain ⟨h1, h2, h3⟩ := ih idx h
      simp only [Bool.not_eq_true, beq_eq_false_iff_ne, ne_eq] at hm
      refine ⟨by simp; omega, ?_, ?_⟩
      · rw [List.getElem?_append_left h1]
        exact h2
      · intro j hj
        rcases Nat.lt_trichotomy j ms.length with hlt | heq | hgt
        · rw [List.getElem?_append_left hlt]
          exact h3 j hj
        · subst heq
          rw [List.getElem?_append_right (Nat.le_refl ms.length)]
          simp
          exact fun hcon => hm hcon
        · have hnone : (ms ++ [m])[j]? = none := by
            apply List.getElem?_eq_none
            simp
            omega
          simp [hnone]

/-- Claim C10: when files is nonempty the OpenAI adapter requires some
user-role message: with no user message the search for the last user
index yields nothing and reading its index throws, so message building
fails before any request is sent; when a user message exists, only the
last user-role message is rewritten (its content becomes the normalized
part array extended with one image-URL part per image file) and every
other message is returned unchanged. -/
theorem openai_files_fold (messages : List Message) (files : List File) :
    (files.length > 0 → (∀ m ∈ messages, m.role ≠ "user") →
      handleOpenAI_processedMessages messages files =
        .error ⟨"TypeError: cannot read property index of undefined"⟩) ∧
    (∀ idx, files.length > 0 → lastUserIndex messages = some idx →
      idx < messages.length ∧
      messages[idx]?.map (fun m => m.role) = some "user" ∧
      (∀ j, idx < j → messages[j]?.map (fun m => m.role) ≠ some "user") ∧
      ∃ out, handleOpenAI_processedMessages messages files = .ok out ∧
        out.length = messages.length ∧
        (∀ i, i ≠ idx → out[i]? = messages[i]?) ∧
        ∃ oldMsg, messages[idx]? = some oldMsg ∧
          out[idx]? = some { oldMsg with content := .arr (
            (match oldMsg.content with
             | .str s => [⟨"text", some s, none⟩]
             | .arr parts => parts
             | .nullish => []) ++ files.filterMap (fun f =>
              if f.ftype == "image" then some ⟨"image_url", none, some (legacyImageUrl f)⟩
              else none)) }) := by
  constructor
  · intro hf hnouser
    have hnone : lastUserIndex messages = none := (lastUserIndex_none_iff messages).mpr hnouser
    unfold handleOpenAI_processedMessages
    rw [if_pos hf, hnone]
  · intro idx hf hidx
    obtain ⟨h1, h2, h3⟩ := lastUserIndex_spec messages idx hidx
    obtain ⟨oldMsg, hold, hrole⟩ : ∃ a, messages[idx]? = some a ∧ a.role = "user" := by
      rcases hget : messages[idx]? with _ | a
      · rw [hget] at h2; cases h2
      · rw [hget] at h2
        simp only [Option.map_some'] at h2
        exact ⟨a, rfl, by injection h2⟩
    refine ⟨h1, h2, h3, ?_⟩
    refine ⟨messages.set idx { (messages[idx]?).getD ⟨"user", .nullish⟩ with content := .arr (
      (match ((messages[idx]?).getD ⟨"user", .nullish⟩).content with
       | .str s => [⟨"text", some s, none⟩]
       | .arr parts => parts
       | .nullish => []) ++ files.filterMap (fun f =>
        if f.ftype == "image" then some ⟨"image_url", none, some (legacyImageUrl f)⟩
        else none)) }, ?_, ?_, ?_, ?_⟩
    · unfold handleOpenAI_processedMessages
      rw [if_pos hf, hidx]
    · simp
    · intro i hne
      exact List.getElem?_set_ne (fun hcon => hne hcon.symm)
    · refine ⟨oldMsg, hold, ?_⟩
      rw [List.getElem?_set_eq_of_lt _ h1]
      rw [hold]
      simp

/-- Witness for claim C10: one user message and one image file, applying
the theorem and reading off its first conjuncts. -/
theorem openai_files_fold_witness :
    0 < ([⟨"user", Content.str "hi"⟩] : List Message).length ∧
    ([⟨"user", Content.str "hi"⟩] : List Message)[0]?.map (fun m => m.role) = some "user" := by
  have h := (openai_files_fold [⟨"user", Content.str "hi"⟩]
    [⟨"image", some "http://x", none⟩]).2 0 (by decide) rfl
  exact ⟨h.1, h.2.1⟩

/- ===== Claims C1 and C2 ===== -/

/-- Helper: when the cleanup script reports 1, the queue was empty and the
lock was deleted. -/
theorem cleanup_script_one {q : List String} {l l' : Option (String × Nat)} {r : Nat}
    {q' : List String} (hs : CLEANUP_SCRIPT q l = (r, q', l')) (hr : r = 1) :
    q = [] ∧ q' = [] ∧ l' = none := by
  subst hr
  unfold CLEANUP_SCRIPT at hs
  by_cases hz : q.length = 0
  · rw [if_pos hz] at hs
    injection hs with ha hb
    injection hb with hb1 hb2
    have hqnil : q = [] := List.length_eq_zero.mp hz
    exact ⟨hqnil, hb1 ▸ hqnil, hb2.symm⟩
  · rw [if_neg hz] at hs
    injection hs with ha hb
    exact absurd ha (by decide)

/-- Helper: when the cleanup script reports other than 1, it changed
nothing. -/
theorem cleanup_script_keep {q : List String} {l l' : Option (String × Nat)} {r : Nat}
    {q' : List String} (hs : CLEANUP_SCRIPT q l = (r, q', l')) (hr : r ≠ 1) :
    q' = q ∧ l' = l := by
  unfold CLEANUP_SCRIPT at hs
  by_cases hz : q.length = 0
  · rw [if_pos hz] at hs
    injection hs with ha hb
    exact absurd ha.symm hr
  · rw [if_neg hz] at hs
    injection hs with ha hb
    injection hb with hb1 hb2
    exact ⟨hb1.symm, hb2.symm⟩

/-- Helper: an equation between distinct worker program counters is
absurd. -/
theorem wpc_done_ne_inLoop (h : WPC.done = WPC.inLoop) : False := nomatch h

/-- Helper invariant: in every reachable state, an in-loop worker implies
the lock key is held with value "1" and TTL 300, and at most one worker is
in-loop. -/
theorem reachable_lock_inv (s : SysState) (h : Reachable s) :
    (∀ w, s.pc w = WPC.inLoop → s.lock = some ("1", 300)) ∧
    (∀ w w', s.pc w = WPC.inLoop → s.pc w' = WPC.inLoop → w = w') := by
  induction h with
  | init =>
    constructor
    · intro w hw
      exact WPC.noConfusion hw
    · intro w w' hw _
      exact WPC.noConfusion hw
  | step s1 s2 hr hst ih =>
    obtain ⟨ih1, ih2⟩ := ih
    cases hst with
    | push j => exact ⟨ih1, ih2⟩
    | spawn h => exact ⟨ih1, ih2⟩
    | acquireOk w hw hl =>
      constructor
      · intro w' _
        rfl
      · intro w1 w2 h1 h2
        by_cases e1 : w1 = w
        · by_cases e2 : w2 = w
          · rw [e1, e2]
          · exfalso
            simp only [updatePc, if_neg e2] at h2
            rw [ih1 w2 h2] at hl
            exact Option.noConfusion hl
        · exfalso
          simp only [updatePc, if_neg e1] at h1
          rw [ih1 w1 h1] at hl
          exact Option.noConfusion hl
    | acquireFail w hw hl =>
      constructor
      · intro w' h'
        by_cases e : w' = w
        · exfalso
          simp only [updatePc, if_pos e] at h'
          exact wpc_done_ne_inLoop h'
        · simp only [updatePc, if_neg e] at h'
          exact ih1 w' h'
      · intro w1 w2 h1 h2
        by_cases e1 : w1 = w
        · exfalso
          simp only [updatePc, if_pos e1] at h1
          exact wpc_done_ne_inLoop h1
        · by_cases e2 : w2 = w
          · exfalso
            simp only [updatePc, if_pos e2] at h2
            exact wpc_done_ne_inLoop h2
          · simp only [updatePc, if_neg e1] at h1
            simp only [updatePc, if_neg e2] at h2
            exact ih2 w1 w2 h1 h2
    | popJob w j rest hw hq => exact ⟨ih1, ih2⟩
    | cleanupExit w r q' l' hw hs hr =>
      constructor
      · intro w' h'
        exfalso
        by_cases e : w' = w
        · simp only [updatePc, if_pos e] at h'
          exact wpc_done_ne_inLoop h'
        · simp only [updatePc, if_neg e] at h'
          exact e (ih2 w' w h' hw)
      · intro w1 w2 h1 h2
        exfalso
        by_cases e1 : w1 = w
        · simp only [updatePc, if_pos e1] at h1
          exact wpc_done_ne_inLoop h1
        · simp only [updatePc, if_neg e1] at h1
          exact e1 (ih2 w1 w h1 hw)
    | cleanupContinue w r q' l' hw hs hr =>
      obtain ⟨-, hl⟩ := cleanup_script_keep hs hr
      subst hl
      exact ⟨ih1, ih2⟩
    | crash w hw =>
      constructor
      · intro w' h'
        exfalso
        by_cases e : w' = w
        · simp only [updatePc, if_pos e] at h'
          exact wpc_done_ne_inLoop h'
        · simp only [updatePc, if_neg e] at h'
          exact e (ih2 w' w h' hw)
      · intro w1 w2 h1 h2
        exfalso
        by_cases e1 : w1 = w
        · simp only [updatePc, if_pos e1] at h1
          exact wpc_done_ne_inLoop h1
        · simp only [updatePc, if_neg e1] at h1
          exact e1 (ih2 w1 w h1 hw)

/-- Claim C1: the cleanup script returns 1 and deletes the lock exactly
when the queue length is 0 at that instant, and otherwise returns 0
leaving queue and lock untouched; an in-loop worker whose blocking pop
came back empty then either exits, deleting its registry entry, exactly
when the script returned 1, or continues the loop with the lock still
held, so the cleanup path never deletes the lock while a job sits on the
queue. -/
theorem cleanup_idle_shutdown :
    (∀ (q : List String) (l : Option (String × Nat)),
      (((CLEANUP_SCRIPT q l).fst = 1 ∧ (CLEANUP_SCRIPT q l).snd.snd = none) ↔ q.length = 0) ∧
      (q.length ≠ 0 → CLEANUP_SCRIPT q l = (0, q, l))) ∧
    (∀ (s : SysState) (w : Nat), s.pc w = WPC.inLoop → s.queue = [] →
      Step s { s with queue := [], lock := none, registry := false,
                      pc := updatePc s.pc w WPC.done }) ∧
    (∀ (s : SysState) (w : Nat), s.pc w = WPC.inLoop → s.queue ≠ [] →
      Step s s ∧ (CLEANUP_SCRIPT s.queue s.lock).snd.snd = s.lock) := by
  refine ⟨?_, ?_, ?_⟩
  · intro q l
    constructor
    · constructor
      · rintro ⟨h1, -⟩
        by_contra hz
        have : CLEANUP_SCRIPT q l = (0, q, l) := by
          unfold CLEANUP_SCRIPT
          rw [if_neg hz]
        rw [this] at h1
        simp at h1
      · intro hz
        unfold CLEANUP_SCRIPT
        rw [if_pos hz]
        exact ⟨rfl, rfl⟩
    · intro hz
      unfold CLEANUP_SCRIPT
      rw [if_neg hz]
  · intro s w hw hq
    have hs : CLEANUP_SCRIPT s.queue s.lock = (1, [], none) := by
      rw [hq]
      rfl
    exact Step.cleanupExit s w 1 [] none hw hs rfl
  · intro s w hw hq
    have hz : s.queue.length ≠ 0 := fun hcon => hq (List.length_eq_zero.mp hcon)
    have hs : CLEANUP_SCRIPT s.queue s.lock = (0, s.queue, s.lock) := by
      unfold CLEANUP_SCRIPT
      rw [if_neg hz]
    refine ⟨?_, by rw [hs]⟩
    exact Step.cleanupContinue s w 0 s.queue s.lock hw hs (by decide)

/-- Witness for claim C1: an idle in-loop worker over an empty queue takes
the exit transition, deleting lock and registry entry. -/
theorem cleanup_idle_shutdown_witness :
    Step ⟨[], some ("1", 300), true, fun _ => WPC.inLoop⟩
      ⟨[], none, false, updatePc (fun _ => WPC.inLoop) 0 WPC.done⟩ :=
  cleanup_idle_shutdown.2.1 ⟨[], some ("1", 300), true, fun _ => WPC.inLoop⟩ 0 rfl rfl

/-- Claim C2: in every reachable state at most one worker is inside the
dequeue loop for the tenant, any in-loop worker holds the lock key set to
"1" with TTL 300 (set-if-absent on entry), a worker whose set-if-absent
failed steps directly to done without touching queue or lock, and every
transition that pops the head of the queue is taken by an in-loop worker
holding the lock. -/
theorem tenant_lock_mutual_exclusion (s : SysState) (hs : Reachable s) :
    (∀ w, s.pc w = WPC.inLoop → s.lock = some ("1", 300)) ∧
    (∀ w w', s.pc w = WPC.inLoop → s.pc w' = WPC.inLoop → w = w') ∧
    (∀ w, s.pc w = WPC.notStarted → s.lock ≠ none →
      Step s { s with pc := updatePc s.pc w WPC.done }) ∧
    (∀ s' j, Step s s' → s.queue = j :: s'.queue →
      ∃ w, s.pc w = WPC.inLoop ∧ s.lock = some ("1", 300)) := by
  obtain ⟨h1, h2⟩ := reachable_lock_inv s hs
  refine ⟨h1, h2, fun w hw hl => Step.acquireFail s w hw hl, ?_⟩
  intro s' j hst hq
  cases hst with
  | push j' =>
    exfalso
    have := congrArg List.length hq
    simp only [List.length_cons, List.length_append, List.length_nil] at this
    omega
  | spawn h =>
    exfalso
    have := congrArg List.length hq
    simp only [List.length_cons, List.length_append, List.length_nil] at this
    omega
  | acquireOk w hw hl =>
    exfalso
    have := congrArg List.length hq
    simp only [List.length_cons, List.length_append, List.length_nil] at this
    omega
  | acquireFail w hw hl =>
    exfalso
    have := congrArg List.length hq
    simp only [List.length_cons, List.length_append, List.length_nil] at this
    omega
  | popJob w j0 rest hw hq0 =>
    exact ⟨w, hw, h1 w hw⟩
  | cleanupExit w r q' l' hw hsc hr =>
    exfalso
    obtain ⟨hqnil, hq', -⟩ := cleanup_script_one hsc hr
    subst hq'
    rw [hqnil] at hq
    exact List.noConfusion hq
  | cleanupContinue w r q' l' hw hsc hr =>
    exfalso
    obtain ⟨hq', -⟩ := cleanup_script_keep hsc hr
    subst hq'
    have := congrArg List.length hq
    simp only [List.length_cons, List.length_append, List.length_nil] at this
    omega
  | crash w hw =>
    exfalso
    have := congrArg List.length hq
    simp only [List.length_cons, List.length_append, List.length_nil] at this
    omega

/-- Witness for claim C2: the state after one successful acquire from the
initial state is reachable, and the theorem yields that its lock is held
with value "1" and TTL 300. -/
theorem tenant_lock_mutual_exclusion_witness :
    (SysState.mk [] (some ("1", 300)) false
      (updatePc (fun _ => WPC.notStarted) 0 WPC.inLoop)).lock = some ("1", 300) := by
  have hreach : Reachable ⟨[], some ("1", 300), false,
      updatePc (fun _ => WPC.notStarted) 0 WPC.inLoop⟩ :=
    Reachable.step _ _ Reachable.init (Step.acquireOk initState 0 rfl rfl)
  exact (tenant_lock_mutual_exclusion _ hreach).1 0 (by simp [updatePc])

end ProxyV2
